import Mathlib

/-!
Verification development for the playlist-synchronization core of
src/setlist_to_playlist.py.

Shallow embedding: a track is a pair of title and performing artist
(the dict built by SetlistFMClient.parse_songs); the orchestrator in
main, the M3U exporter, the platform resolver and the two live
controllers are translated into pure Lean functions over explicit host
state.  Host-side state (the Music / iTunes library) is modelled as
lists of playlists; per-track outcomes are the Bool values the Python
controller methods return, since both controllers catch every exception
internally and convert it to False.
-/

/-- A track as parsed by SetlistFMClient.parse_songs (lines 60 to 69):
a record with the song name and the performing artist; the artist is the
cover artist when the source marks the song as a cover. -/
structure Song where
  name : String
  artist : String
deriving DecidableEq

/-- A live automation backend as the orchestrator in main sees it:
create models the create_playlist call, which either raises (Except.error
with the message) or yields the host state after creation; step models
search_and_add_song, a total function returning a Bool because both
controllers absorb host errors and raised exceptions into a False return
(lines 144 to 157 and 215 to 251).  The type parameter is the host
library state the backend reads and mutates. -/
structure LiveBackend (σ : Type) where
  create : Except String σ
  step : σ → Song → Bool × σ

/-- The per-track loop of main (lines 435 to 439): visit each song in
list order, call search_and_add_song, record its Bool outcome, and
thread the host state through. -/
def runTracks {σ : Type} (step : σ → Song → Bool × σ) : σ → List Song → List (Song × Bool) × σ
  | s, [] => ([], s)
  | s, t :: ts =>
    let r := step s t
    let rest := runTracks step r.2 ts
    ((t, r.1) :: rest.1, rest.2)

/-- The successful counter of main (lines 432, 436 to 437): the number
of tracks whose search_and_add_song call returned True. -/
def countSuccess (l : List (Song × Bool)) : Nat := (l.filter (fun p => p.2)).length

/-- The failed counter of main (lines 433, 438 to 439): the number of
tracks whose call returned False, covering not-found, host-signaled
error and caught exception alike. -/
def countFailed (l : List (Song × Bool)) : Nat := (l.filter (fun p => !p.2)).length

/-- Observable trace of one run of the synchronization part of main
(lines 400 to 449): the exporter invocations with their exact arguments,
the number of create_playlist calls, the per-track visits with their
outcomes, the two counters, and the process exit status (sys.exit(1)
gives 1, returning from main gives 0). -/
structure RunTrace where
  exportCalls : List (String × List Song × Option String)
  createCalls : Nat
  visited : List (Song × Bool)
  successful : Nat
  failed : Nat
  exitCode : Nat

/-- The synchronization engine of main once the controller is resolved
(lines 400 to 449): a None controller exports and returns success
(lines 402 to 416); a live controller first calls create_playlist, and
on an exception exports the full list as fallback and exits 1
(lines 421 to 428), otherwise runs the per-track loop (lines 435 to 439)
and returns normally with exit status 0. -/
def mainSync {σ : Type} (controller : Option (LiveBackend σ)) (playlistName : String) (songs : List Song) (output : Option String) : RunTrace :=
  match controller with
  | none =>
    { exportCalls := [(playlistName, songs, output)], createCalls := 0,
      visited := [], successful := 0, failed := 0, exitCode := 0 }
  | some b =>
    match b.create with
    | .error _ =>
      { exportCalls := [(playlistName, songs, output)], createCalls := 1,
        visited := [], successful := 0, failed := 0, exitCode := 1 }
    | .ok s1 =>
      let r := runTracks b.step s1 songs
      { exportCalls := [], createCalls := 1, visited := r.1,
        successful := countSuccess r.1, failed := countFailed r.1, exitCode := 0 }

/-- The sys.platform values distinguished by get_music_controller
(lines 289, 292 and 304). -/
inductive PlatformId
  | darwin
  | win32
  | other (s : String)
deriving DecidableEq

/-- The two live controller classes the resolver can return. -/
inductive ControllerKind
  | mac
  | windows
deriving DecidableEq

/-- Resolution of the automation backend, get_music_controller
(lines 281 to 308): None models the M3U-export (Null) fallback.
pywin32Available models whether import win32com succeeds in
AppleMusicWindowsController.__init__ (lines 163 to 172), the only
exception the resolver can actually observe; hostReachable models
whether the host application answers the COM dispatch, a fact the source
never consults during resolution because _get_itunes binds lazily on
first use (lines 174 to 190) - hence the parameter is unused here. -/
def get_music_controller (export_only : Bool) (platform : PlatformId) (pywin32Available : Bool) (_hostReachable : Bool) : Option ControllerKind :=
  if export_only then none
  else
    match platform with
    | .darwin => some .mac
    | .win32 => if pywin32Available then some .windows else none
    | .other _ => none

/-- Append a track id to the first playlist with the given name; used by
both live controllers to model adding the found track to the destination
playlist. -/
def addToFirstPlaylist : List (String × List Nat) → String → Nat → List (String × List Nat)
  | [], _, _ => []
  | p :: rest, name, tr =>
    if p.1 = name then (p.1, p.2 ++ [tr]) :: rest
    else p :: addToFirstPlaylist rest name tr

namespace AppleMusicMacController

/-- Quote escaping applied to the song and artist names before the
search script is built (lines 124 to 125): each double quote becomes
backslash double-quote. -/
def escapeChars : List Char → List Char
  | [] => []
  | c :: rest => if c = '\"' then '\\' :: '\"' :: escapeChars rest else c :: escapeChars rest

/-- The Python expression value.replace('\"', '\\\"') on a string
(lines 124 to 125). -/
def escape_quotes (s : String) : String := String.mk (escapeChars s.data)

/-- The AppleScript text built by create_playlist (lines 108 to 114):
the playlist name is interpolated verbatim, with no escaping. -/
def create_playlist_script (name : String) : String :=
  "\n        tell application \"Music\"\n            if not (exists playlist \"" ++ name
    ++ "\") then\n                make new playlist with properties \x7bname:\"" ++ name
    ++ "\"\x7d\n            end if\n        end tell\n        "

/-- The AppleScript text built by search_and_add_song (lines 127 to
142): the song and artist names go through escape_quotes; the playlist
name is interpolated verbatim. -/
def search_script (playlist_name song_name artist_name : String) : String :=
  "\n        tell application \"Music\"\n            try\n                set searchResults to search playlist \"Library\" for \""
    ++ escape_quotes song_name ++ " " ++ escape_quotes artist_name
    ++ "\"\n                if (count of searchResults) > 0 then\n                    set theTrack to item 1 of searchResults\n                    duplicate theTrack to playlist \""
    ++ playlist_name
    ++ "\"\n                    return \"success\"\n                else\n                    return \"not found\"\n                end if\n            on error errMsg\n                return \"error: \" & errMsg\n            end try\n        end tell\n        "

/-- Model of the Music application host: its library search, and the
user playlists as pairs of a name and the list of contained track ids. -/
structure MacMusic where
  search : String → List Nat
  playlists : List (String × List Nat)

/-- Semantics of the AppleScript run by create_playlist (lines 106 to
116) against the modelled host: make a new empty playlist unless one
with exactly that name already exists. -/
def create_playlist (m : MacMusic) (name : String) : MacMusic :=
  if name ∈ m.playlists.map Prod.fst then m
  else { m with playlists := m.playlists ++ [(name, [])] }

/-- Number of playlists with the given name in the modelled host. -/
def countPlaylists (m : MacMusic) (name : String) : Nat :=
  m.playlists.countP (fun p => p.1 == name)

/-- Semantics of the AppleScript run by search_and_add_song (lines 127
to 142) against the modelled host, returning the script result string
and the updated host.  The script embeds escape_quotes of the song and
artist, which AppleScript string parsing undoes, so the host search
receives song_name, one space, artist_name.  Zero results return
"not found"; otherwise item 1 of the results is duplicated to the named
playlist and the script returns "success"; duplicating to an absent
playlist trips the on-error handler, which returns the error message
prefixed with "error: ". -/
def run_search_script (m : MacMusic) (playlist_name song_name artist_name : String) : String × MacMusic :=
  match m.search (song_name ++ " " ++ artist_name) with
  | [] => ("not found", m)
  | tr :: _ =>
    if playlist_name ∈ m.playlists.map Prod.fst then
      ("success", { m with playlists := addToFirstPlaylist m.playlists playlist_name tr })
    else
      ("error: no playlist", m)

/-- search_and_add_song (lines 118 to 157): run the script and map the
result string to the returned Bool - True exactly for "success";
"not found", any "error: ..." result and any caught exception all give
False, and the loop in main never sees an exception. -/
def search_and_add_song (m : MacMusic) (playlist_name song_name artist_name : String) : Bool × MacMusic :=
  let r := run_search_script m playlist_name song_name artist_name
  (r.1 == "success", r.2)

end AppleMusicMacController

/-- One COM source as scanned by the Windows controller: its Kind
(1 means a library source) and its playlists with their track ids. -/
structure WinSource where
  kind : Nat
  playlists : List (String × List Nat)

/-- Model of the iTunes / Apple Music COM application: its sources and
the LibraryPlaylist.Search facility (line 238), returning track ids. -/
structure WinLibrary where
  sources : List WinSource
  searchAll : String → List Nat

namespace AppleMusicWindowsController

/-- The lazy COM binding _get_itunes (lines 174 to 190): on an
unreachable host it raises RuntimeError, modelled as Except.error.  This
happens on first use inside create_playlist or search_and_add_song,
after resolution has already returned the controller. -/
def get_itunes (hostReachable : Bool) : Except String Unit :=
  if hostReachable then Except.ok ()
  else Except.error "Could not connect to Apple Music/iTunes"

/-- The existence scan of create_playlist and the target lookup of
search_and_add_song (lines 196 to 204 and 219 to 229): some source of
Kind 1 holds a playlist with exactly the given name. -/
def playlistExists (sources : List WinSource) (name : String) : Bool :=
  sources.any (fun s => s.kind == 1 && s.playlists.any (fun p => p.1 == name))

/-- Whether any source is a library source (Kind 1). -/
def hasLibrarySource (sources : List WinSource) : Bool :=
  sources.any (fun s => s.kind == 1)

/-- Effect of app.CreatePlaylist(name) (line 207): a new empty user
playlist appears in the library source (the first source of Kind 1). -/
def addNewPlaylist : List WinSource → String → List WinSource
  | [], _ => []
  | s :: rest, name =>
    if s.kind == 1 then { s with playlists := s.playlists ++ [(name, [])] } :: rest
    else s :: addNewPlaylist rest name

/-- create_playlist (lines 192 to 208): scan the Kind-1 sources for an
exact name match and return unchanged if found, else create the
playlist. -/
def create_playlist (sources : List WinSource) (name : String) : List WinSource :=
  if playlistExists sources name then sources else addNewPlaylist sources name

/-- Number of playlists with the given name across the Kind-1 sources. -/
def countPlaylist (sources : List WinSource) (name : String) : Nat :=
  (sources.map (fun s => if s.kind == 1 then s.playlists.countP (fun p => p.1 == name) else 0)).sum

/-- Effect of track.AddToPlaylist(target_playlist) (line 242): the found
track id is appended to the first matching playlist in the first Kind-1
source that holds it, mirroring the nested scan with break. -/
def addTrackToTarget : List WinSource → String → Nat → List WinSource
  | [], _, _ => []
  | s :: rest, name, tr =>
    if s.kind == 1 && s.playlists.any (fun p => p.1 == name) then
      { s with playlists := addToFirstPlaylist s.playlists name tr } :: rest
    else s :: addTrackToTarget rest name tr

/-- search_and_add_song (lines 210 to 251): locate the destination
playlist by scanning Kind-1 sources (False if absent); search the whole
library for song name, one space, artist name; no results give False;
otherwise Item(1) - the first result under COM 1-based indexing - is
added to the destination and the call returns True. -/
def search_and_add_song (lib : WinLibrary) (playlist_name song_name artist_name : String) : Bool × WinLibrary :=
  if playlistExists lib.sources playlist_name then
    match lib.searchAll (song_name ++ " " ++ artist_name) with
    | [] => (false, lib)
    | tr :: _ => (true, { lib with sources := addTrackToTarget lib.sources playlist_name tr })
  else (false, lib)

end AppleMusicWindowsController

namespace M3UExporter

/-- The character test of the safe-filename comprehension (line 265):
keep alphanumeric characters, spaces, hyphens and underscores. -/
def keepChar (c : Char) : Bool := c.isAlphanum || c == ' ' || c == '-' || c == '_'

/-- Python str.rstrip on a character list: drop trailing whitespace. -/
def rstripChars (l : List Char) : List Char :=
  (l.reverse.dropWhile (fun c => c.isWhitespace)).reverse

/-- The sanitized base name safe_name (line 265): keep exactly the
characters passing keepChar, then strip trailing whitespace. -/
def safe_name (playlist_name : String) : String :=
  String.mk (rstripChars (playlist_name.data.filter keepChar))

/-- The derived output path when none is given (line 266). -/
def defaultPath (playlist_name : String) : String := safe_name playlist_name ++ ".m3u"

/-- The EXTINF line written for one song (line 273): unknown duration
sentinel -1, then artist, a separator, and the title. -/
def extinfLine (s : Song) : String := "#EXTINF:-1," ++ s.artist ++ " - " ++ s.name

/-- The comment line written for one song (line 276): the literal search
phrase, title by artist. -/
def searchLine (s : Song) : String := "# Search: " ++ s.name ++ " by " ++ s.artist

/-- The body lines of the file: two lines per song, in list order
(lines 270 to 276). -/
def bodyLines : List Song → List String
  | [] => []
  | s :: rest => extinfLine s :: searchLine s :: bodyLines rest

/-- All lines of the exported file: the fixed header then the body
(lines 269 to 276). -/
def fileLines (songs : List Song) : List String := "#EXTM3U" :: bodyLines songs

/-- The full text written to the file; every line is written with a
trailing newline. -/
def fileText (songs : List Song) : String :=
  String.join ((fileLines songs).map (fun l => l ++ "\n"))

/-- export_playlist (lines 258 to 278): choose the output path - the
explicit one if given, else the sanitized default - write the M3U text
there, and return the path.  Modelled as returning the pair of the path
and the written text. -/
def export_playlist (playlist_name : String) (songs : List Song) (output_path : Option String) : String × String :=
  let path :=
    match output_path with
    | some p => p
    | none => defaultPath playlist_name
  (path, fileText songs)

end M3UExporter

/-! Helper lemmas about the per-track loop. -/

theorem runTracks_map_fst {σ : Type} (step : σ → Song → Bool × σ) (s : σ) (songs : List Song) :
    (runTracks step s songs).1.map Prod.fst = songs := by
  induction songs generalizing s with
  | nil => rfl
  | cons t ts ih => simp [runTracks, ih]

theorem countSuccess_add_countFailed (l : List (Song × Bool)) :
    countSuccess l + countFailed l = l.length := by
  induction l with
  | nil => rfl
  | cons p ps ih =>
    cases h : p.2 <;>
      simp [countSuccess, countFailed, List.filter_cons, h] at ih ⊢ <;> omega

/-- C1: on the live path, once create_playlist has succeeded, every track
is tallied in exactly one of the two counters, so successful plus failed
equals the length of the track list, whatever Bool each
search_and_add_song call returns - host-signaled errors included, since
they surface as a False return. -/
theorem c1_tallies_partition {σ : Type} (b : LiveBackend σ) (name : String) (songs : List Song) (out : Option String) (s1 : σ) (h : b.create = Except.ok s1) :
    (mainSync (some b) name songs out).successful + (mainSync (some b) name songs out).failed = songs.length := by
  have hlen : (runTracks b.step s1 songs).1.length = songs.length := by
    have := congrArg List.length (runTracks_map_fst b.step s1 songs)
    simpa using this
  simp only [mainSync, h]
  rw [countSuccess_add_countFailed, hlen]

/-- C1 witness: a concrete two-track live run, one success and one
failure, tallies to the total of 2. -/
theorem c1_tallies_partition_witness :
    (mainSync (some (⟨Except.ok (), fun s t => (t.name == "Song A", s)⟩ : LiveBackend Unit)) "P" [⟨"Song A", "X"⟩, ⟨"Song B", "Y"⟩] none).successful
      + (mainSync (some (⟨Except.ok (), fun s t => (t.name == "Song A", s)⟩ : LiveBackend Unit)) "P" [⟨"Song A", "X"⟩, ⟨"Song B", "Y"⟩] none).failed = 2 :=
  c1_tallies_partition (⟨Except.ok (), fun s t => (t.name == "Song A", s)⟩ : LiveBackend Unit) "P" [⟨"Song A", "X"⟩, ⟨"Song B", "Y"⟩] none () rfl

/-- C3: on the live path the loop visits every song exactly once, in
track-list order, for every pattern of per-track outcomes; the step
function is total because both controllers absorb host errors and raised
exceptions into a Bool return, so no per-track failure can abort the
iteration or escape the loop. -/
theorem c3_visits_every_track_in_order {σ : Type} (b : LiveBackend σ) (name : String) (songs : List Song) (out : Option String) (s1 : σ) (h : b.create = Except.ok s1) :
    (mainSync (some b) name songs out).visited.map Prod.fst = songs := by
  simp only [mainSync, h]
  exact runTracks_map_fst b.step s1 songs

/-- C3 witness: a backend whose every call reports failure (as a host
error would) still visits both tracks in order. -/
theorem c3_visits_every_track_in_order_witness :
    (mainSync (some (⟨Except.ok (), fun s _ => (false, s)⟩ : LiveBackend Unit)) "P" [⟨"A", "X"⟩, ⟨"B", "Y"⟩] none).visited.map Prod.fst
      = ([⟨"A", "X"⟩, ⟨"B", "Y"⟩] : List Song) :=
  c3_visits_every_track_in_order (⟨Except.ok (), fun s _ => (false, s)⟩ : LiveBackend Unit) "P" [⟨"A", "X"⟩, ⟨"B", "Y"⟩] none () rfl

/-- C4: on a live backend whose create_playlist raises, the run exports
the full track list exactly once as recovery, attempts no track
addition, and terminates with a non-zero exit status. -/
theorem c4_create_failure_exports_and_exits {σ : Type} (b : LiveBackend σ) (name : String) (songs : List Song) (out : Option String) (e : String) (h : b.create = Except.error e) :
    (mainSync (some b) name songs out).exportCalls = [(name, songs, out)]
      ∧ (mainSync (some b) name songs out).visited = []
      ∧ (mainSync (some b) name songs out).exitCode ≠ 0 := by
  simp [mainSync, h]

/-- C4 witness: a concrete run whose playlist creation raises. -/
theorem c4_create_failure_exports_and_exits_witness :
    (mainSync (some (⟨Except.error "AppleScript error", fun s _ => (true, s)⟩ : LiveBackend Unit)) "P" [⟨"A", "X"⟩] none).exportCalls = [("P", [⟨"A", "X"⟩], none)]
      ∧ (mainSync (some (⟨Except.error "AppleScript error", fun s _ => (true, s)⟩ : LiveBackend Unit)) "P" [⟨"A", "X"⟩] none).visited = []
      ∧ (mainSync (some (⟨Except.error "AppleScript error", fun s _ => (true, s)⟩ : LiveBackend Unit)) "P" [⟨"A", "X"⟩] none).exitCode ≠ 0 :=
  c4_create_failure_exports_and_exits (⟨Except.error "AppleScript error", fun s _ => (true, s)⟩ : LiveBackend Unit) "P" [⟨"A", "X"⟩] none "AppleScript error" rfl

/-- C7: with the Null backend (controller None, as resolution yields in
particular for the export-only flag, last conjunct) a run on a non-empty
track list makes exactly one exporter call carrying the full track list,
zero backend calls, and exits with status 0, reporting success. -/
theorem c7_null_backend_exports_once (name : String) (songs : List Song) (out : Option String) (_h : songs ≠ []) :
    (mainSync (none : Option (LiveBackend Unit)) name songs out).exportCalls = [(name, songs, out)]
      ∧ (mainSync (none : Option (LiveBackend Unit)) name songs out).createCalls = 0
      ∧ (mainSync (none : Option (LiveBackend Unit)) name songs out).visited = []
      ∧ (mainSync (none : Option (LiveBackend Unit)) name songs out).exitCode = 0
      ∧ ∀ (p : PlatformId) (pw hr : Bool), get_music_controller true p pw hr = none := by
  refine ⟨rfl, rfl, rfl, rfl, ?_⟩
  intro p pw hr
  rfl

/-- C7 witness: the concrete export-only run on a one-track list. -/
theorem c7_null_backend_exports_once_witness :
    (mainSync (none : Option (LiveBackend Unit)) "P" [⟨"A", "X"⟩] none).exportCalls = [("P", [⟨"A", "X"⟩], none)]
      ∧ (mainSync (none : Option (LiveBackend Unit)) "P" [⟨"A", "X"⟩] none).createCalls = 0
      ∧ (mainSync (none : Option (LiveBackend Unit)) "P" [⟨"A", "X"⟩] none).visited = []
      ∧ (mainSync (none : Option (LiveBackend Unit)) "P" [⟨"A", "X"⟩] none).exitCode = 0
      ∧ ∀ (p : PlatformId) (pw hr : Bool), get_music_controller true p pw hr = none :=
  c7_null_backend_exports_once "P" [⟨"A", "X"⟩] none (by decide)

/-- C5 counterexample: with export-only off, platform win32, pywin32
importable but the host application unreachable, resolution returns the
Windows controller rather than degrading to the Null backend - the
claimed degradation on an unreachable host does not happen at
resolution, because the COM binding is lazy. -/
theorem c5_counterexample_unreachable_host_not_null :
    get_music_controller false PlatformId.win32 true false = some ControllerKind.windows
      ∧ get_music_controller false PlatformId.win32 true false ≠ none := by
  refine ⟨rfl, ?_⟩
  simp [get_music_controller]

/-- C5 amended: resolution is total and never fails: the export-only
flag gives the Null backend; darwin gives the Mac controller
unconditionally; win32 gives the Windows controller exactly when pywin32
imports, and otherwise warns and degrades to Null; an OS with no known
native backend warns and degrades to Null.  Host reachability plays no
role at resolution; an unreachable host surfaces only on first use of
the lazy COM binding, as a RuntimeError (last conjunct). -/
theorem c5_resolution_characterization (pw hr : Bool) (p : PlatformId) (s : String) :
    get_music_controller true p pw hr = none
      ∧ get_music_controller false PlatformId.darwin pw hr = some ControllerKind.mac
      ∧ get_music_controller false PlatformId.win32 true hr = some ControllerKind.windows
      ∧ get_music_controller false PlatformId.win32 false hr = none
      ∧ get_music_controller false (PlatformId.other s) pw hr = none
      ∧ AppleMusicWindowsController.get_itunes false = Except.error "Could not connect to Apple Music/iTunes" :=
  ⟨rfl, rfl, rfl, rfl, rfl, rfl⟩

/-! Helper lemmas about the exporter. -/

theorem bodyLines_length (songs : List Song) :
    (M3UExporter.bodyLines songs).length = 2 * songs.length := by
  induction songs with
  | nil => rfl
  | cons s rest ih => simp [M3UExporter.bodyLines, ih, Nat.mul_succ]

theorem bodyLines_get (songs : List Song) : ∀ (i : Nat) (h : i < songs.length),
    (M3UExporter.bodyLines songs).get? (2 * i) = some (M3UExporter.extinfLine (songs.get ⟨i, h⟩))
      ∧ (M3UExporter.bodyLines songs).get? (2 * i + 1) = some (M3UExporter.searchLine (songs.get ⟨i, h⟩)) := by
  induction songs with
  | nil => intro i h; exact absurd h (Nat.not_lt_zero i)
  | cons s rest ih =>
    intro i h
    match i with
    | 0 => exact ⟨rfl, rfl⟩
    | Nat.succ j =>
      have hj : j < rest.length := Nat.lt_of_succ_lt_succ h
      have h2 : 2 * (j + 1) = 2 * j + 1 + 1 := by omega
      rw [h2]
      constructor
      · simpa [M3UExporter.bodyLines] using (ih j hj).1
      · simpa [M3UExporter.bodyLines] using (ih j hj).2

theorem rstripChars_sublist (l : List Char) : List.Sublist (M3UExporter.rstripChars l) l := by
  have h1 : List.Sublist (l.reverse.dropWhile (fun c => c.isWhitespace)) l.reverse :=
    List.dropWhile_sublist _
  have h2 := h1.reverse
  rwa [List.reverse_reverse] at h2

/-- C6: the exported file has exactly 2 N + 1 lines for N tracks - one
fixed header, then per track, in track-list order, the EXTINF line at
position 2 i + 1 and the search-comment line at position 2 i + 2; and on
the Scenario A track list with name Test, export_playlist writes exactly
the expected contents to Test.m3u. -/
theorem c6_export_file_format (songs : List Song) :
    (M3UExporter.fileLines songs).length = 2 * songs.length + 1
      ∧ (∀ (i : Nat) (h : i < songs.length),
          (M3UExporter.fileLines songs).get? (2 * i + 1) = some (M3UExporter.extinfLine (songs.get ⟨i, h⟩))
            ∧ (M3UExporter.fileLines songs).get? (2 * i + 2) = some (M3UExporter.searchLine (songs.get ⟨i, h⟩)))
      ∧ M3UExporter.export_playlist "Test" [⟨"Song A", "Artist X"⟩, ⟨"Song B", "Cover Artist Y"⟩] none
          = ("Test.m3u", "#EXTM3U\n#EXTINF:-1,Artist X - Song A\n# Search: Song A by Artist X\n#EXTINF:-1,Cover Artist Y - Song B\n# Search: Song B by Cover Artist Y\n") := by
  refine ⟨?_, ?_, rfl⟩
  · simp [M3UExporter.fileLines, bodyLines_length]
  · intro i h
    constructor
    · simpa [M3UExporter.fileLines] using (bodyLines_get songs i h).1
    · have h2 : 2 * i + 2 = 2 * i + 1 + 1 := by omega
      rw [h2]
      simpa [M3UExporter.fileLines] using (bodyLines_get songs i h).2

/-- C6 witness: on the Scenario A track list, line index 3 of the file
is the EXTINF line of the second track. -/
theorem c6_export_file_format_witness :
    (M3UExporter.fileLines [⟨"Song A", "Artist X"⟩, ⟨"Song B", "Cover Artist Y"⟩]).get? 3
      = some "#EXTINF:-1,Cover Artist Y - Song B" :=
  ((c6_export_file_format [⟨"Song A", "Artist X"⟩, ⟨"Song B", "Cover Artist Y"⟩]).2.1 1 (by decide)).1

/-- C8: the derived filename keeps exactly the characters of the name
passing the retain test (alphanumerics, space, hyphen, underscore, in
original order - a sublist of the name), trims trailing whitespace
(so the base is a sublist of the filtered name), appends the .m3u
extension, and contains no path separator and no colon; the spec's
sanitization example evaluates as stated. -/
theorem c8_safe_filename (name : String) :
    (∀ c ∈ (M3UExporter.defaultPath name).data, c ≠ '/' ∧ c ≠ ':' ∧ c ≠ '\\')
      ∧ List.Sublist (M3UExporter.safe_name name).data (name.data.filter M3UExporter.keepChar)
      ∧ List.Sublist (name.data.filter M3UExporter.keepChar) name.data
      ∧ (∀ c ∈ (M3UExporter.safe_name name).data, M3UExporter.keepChar c = true)
      ∧ M3UExporter.defaultPath "Foo/Bar: Live 2024" = "FooBar Live 2024.m3u" := by
  have hsub : List.Sublist (M3UExporter.safe_name name).data (name.data.filter M3UExporter.keepChar) :=
    rstripChars_sublist _
  have hkeep : ∀ c ∈ (M3UExporter.safe_name name).data, M3UExporter.keepChar c = true := by
    intro c hc
    exact (List.mem_filter.mp (hsub.subset hc)).2
  refine ⟨?_, hsub, List.filter_sublist _, hkeep, rfl⟩
  intro c hc
  have hdata : (M3UExporter.defaultPath name).data = (M3UExporter.safe_name name).data ++ ".m3u".data :=
    String.data_append ..
  rw [hdata] at hc
  rcases List.mem_append.mp hc with hl | hr
  · have hk := hkeep c hl
    refine ⟨?_, ?_, ?_⟩ <;> intro he <;> subst he <;> exact absurd hk (by decide)
  · have hr' : c = '.' ∨ c = 'm' ∨ c = '3' ∨ c = 'u' := by
      have hm : c ∈ ['.', 'm', '3', 'u'] := hr
      simpa using hm
    rcases hr' with rfl | rfl | rfl | rfl <;> exact ⟨by decide, by decide, by decide⟩

/-- C8 witness: a character of the sanitized filename of the spec's
example, shown distinct from the separator characters. -/
theorem c8_safe_filename_witness : 'F' ≠ '/' ∧ 'F' ≠ ':' ∧ 'F' ≠ '\\' :=
  (c8_safe_filename "Foo/Bar: Live 2024").1 'F' (by decide)

/-! Helper lemmas about playlist creation on the two live hosts. -/

theorem mac_mem_iff_countP_pos (l : List (String × List Nat)) (name : String) :
    name ∈ l.map Prod.fst ↔ 0 < l.countP (fun p => p.1 == name) := by
  rw [List.countP_pos_iff]
  simp [List.mem_map, beq_iff_eq]

theorem playlistExists_cons (s : WinSource) (rest : List WinSource) (name : String) :
    AppleMusicWindowsController.playlistExists (s :: rest) name
      = ((s.kind == 1 && s.playlists.any (fun p => p.1 == name))
          || AppleMusicWindowsController.playlistExists rest name) := rfl

theorem hasLibrarySource_cons (s : WinSource) (rest : List WinSource) :
    AppleMusicWindowsController.hasLibrarySource (s :: rest)
      = ((s.kind == 1) || AppleMusicWindowsController.hasLibrarySource rest) := rfl

theorem countPlaylist_cons (s : WinSource) (rest : List WinSource) (name : String) :
    AppleMusicWindowsController.countPlaylist (s :: rest) name
      = (if s.kind == 1 then s.playlists.countP (fun p => p.1 == name) else 0)
          + AppleMusicWindowsController.countPlaylist rest name := by
  simp [AppleMusicWindowsController.countPlaylist]

theorem winAddNew_no_library (ss : List WinSource) (name : String) (h : AppleMusicWindowsController.hasLibrarySource ss = false) :
    AppleMusicWindowsController.addNewPlaylist ss name = ss := by
  induction ss with
  | nil => rfl
  | cons s rest ih =>
    rw [hasLibrarySource_cons] at h
    rcases Bool.or_eq_false_iff.mp h with ⟨h1, h2⟩
    simp [AppleMusicWindowsController.addNewPlaylist, h1, ih h2]

theorem winAddNew_exists (ss : List WinSource) (name : String) :
    AppleMusicWindowsController.playlistExists (AppleMusicWindowsController.addNewPlaylist ss name) name
      = (AppleMusicWindowsController.hasLibrarySource ss || AppleMusicWindowsController.playlistExists ss name) := by
  induction ss with
  | nil => rfl
  | cons s rest ih =>
    cases hk : s.kind == 1 with
    | false =>
      have hstep : AppleMusicWindowsController.addNewPlaylist (s :: rest) name
          = s :: AppleMusicWindowsController.addNewPlaylist rest name := by
        simp [AppleMusicWindowsController.addNewPlaylist, hk]
      rw [hstep, playlistExists_cons, ih, playlistExists_cons, hasLibrarySource_cons, hk]
      cases AppleMusicWindowsController.hasLibrarySource rest <;>
        cases AppleMusicWindowsController.playlistExists rest name <;> simp
    | true =>
      have hstep : AppleMusicWindowsController.addNewPlaylist (s :: rest) name
          = { s with playlists := s.playlists ++ [(name, [])] } :: rest := by
        simp [AppleMusicWindowsController.addNewPlaylist, hk]
      rw [hstep, playlistExists_cons, playlistExists_cons, hasLibrarySource_cons, hk]
      simp [List.any_append]

theorem winAddNew_count (ss : List WinSource) (name : String) :
    AppleMusicWindowsController.countPlaylist (AppleMusicWindowsController.addNewPlaylist ss name) name
      = AppleMusicWindowsController.countPlaylist ss name
        + (if AppleMusicWindowsController.hasLibrarySource ss then 1 else 0) := by
  induction ss with
  | nil => rfl
  | cons s rest ih =>
    cases hk : s.kind == 1 with
    | false =>
      have hstep : AppleMusicWindowsController.addNewPlaylist (s :: rest) name
          = s :: AppleMusicWindowsController.addNewPlaylist rest name := by
        simp [AppleMusicWindowsController.addNewPlaylist, hk]
      rw [hstep, countPlaylist_cons, ih, countPlaylist_cons, hasLibrarySource_cons, hk]
      simp
    | true =>
      have hstep : AppleMusicWindowsController.addNewPlaylist (s :: rest) name
          = { s with playlists := s.playlists ++ [(name, [])] } :: rest := by
        simp [AppleMusicWindowsController.addNewPlaylist, hk]
      rw [hstep, countPlaylist_cons, countPlaylist_cons, hasLibrarySource_cons, hk]
      simp [List.countP_append, List.countP_cons]
      omega

theorem winExists_iff_count_pos (ss : List WinSource) (name : String) :
    AppleMusicWindowsController.playlistExists ss name = true
      ↔ 0 < AppleMusicWindowsController.countPlaylist ss name := by
  induction ss with
  | nil =>
    simp [AppleMusicWindowsController.playlistExists, AppleMusicWindowsController.countPlaylist]
  | cons s rest ih =>
    rw [playlistExists_cons, countPlaylist_cons]
    cases hk : s.kind == 1 with
    | false =>
      simp only [Bool.false_and, Bool.false_or, Bool.false_eq_true, if_false, Nat.zero_add]
      exact ih
    | true =>
      have hAny : (s.playlists.any (fun p => p.1 == name)) = true
          ↔ 0 < s.playlists.countP (fun p => p.1 == name) := by
        rw [List.countP_pos_iff, List.any_eq_true]
      simp only [Bool.true_and, Bool.or_eq_true, eq_self_iff_true, if_true]
      rw [hAny, ih]
      omega

/-- C9: playlist creation is idempotent on both live backends: when a
playlist with exactly the given name exists the call is a no-op, else it
creates one; two consecutive calls with the same name give the same
library as one call, and starting from a library holding at most one
playlist of that name (for Windows: one that has a Kind-1 library
source), exactly one playlist of that name remains. -/
theorem c9_ensure_playlist_idempotent (m : AppleMusicMacController.MacMusic) (name : String) (ss : List WinSource) :
    AppleMusicMacController.create_playlist (AppleMusicMacController.create_playlist m name) name
        = AppleMusicMacController.create_playlist m name
      ∧ (AppleMusicMacController.countPlaylists m name ≤ 1 →
          AppleMusicMacController.countPlaylists
            (AppleMusicMacController.create_playlist (AppleMusicMacController.create_playlist m name) name) name = 1)
      ∧ AppleMusicWindowsController.create_playlist (AppleMusicWindowsController.create_playlist ss name) name
          = AppleMusicWindowsController.create_playlist ss name
      ∧ (AppleMusicWindowsController.hasLibrarySource ss = true →
          AppleMusicWindowsController.countPlaylist ss name ≤ 1 →
          AppleMusicWindowsController.countPlaylist
            (AppleMusicWindowsController.create_playlist (AppleMusicWindowsController.create_playlist ss name) name) name = 1) := by
  have macStep : ∀ h : name ∉ m.playlists.map Prod.fst,
      AppleMusicMacController.create_playlist m name
        = { m with playlists := m.playlists ++ [(name, [])] } := by
    intro h
    simp [AppleMusicMacController.create_playlist, h]
  have macPart : AppleMusicMacController.create_playlist (AppleMusicMacController.create_playlist m name) name
      = AppleMusicMacController.create_playlist m name
      ∧ (AppleMusicMacController.countPlaylists m name ≤ 1 →
          AppleMusicMacController.countPlaylists
            (AppleMusicMacController.create_playlist (AppleMusicMacController.create_playlist m name) name) name = 1) := by
    by_cases hm : name ∈ m.playlists.map Prod.fst
    · have hid : AppleMusicMacController.create_playlist m name = m := by
        simp [AppleMusicMacController.create_playlist, hm]
      rw [hid, hid]
      refine ⟨rfl, ?_⟩
      intro hle
      have hpos := (mac_mem_iff_countP_pos m.playlists name).mp hm
      simp only [AppleMusicMacController.countPlaylists] at hle ⊢
      omega
    · have h0 : m.playlists.countP (fun p => p.1 == name) = 0 := by
        by_contra hne
        exact hm ((mac_mem_iff_countP_pos m.playlists name).mpr (Nat.pos_of_ne_zero hne))
      rw [macStep hm]
      have hm2 : name ∈ ({ m with playlists := m.playlists ++ [(name, [])] } : AppleMusicMacController.MacMusic).playlists.map Prod.fst := by
        simp
      have hid2 : AppleMusicMacController.create_playlist { m with playlists := m.playlists ++ [(name, [])] } name
          = { m with playlists := m.playlists ++ [(name, [])] } := by
        simp [AppleMusicMacController.create_playlist, hm2]
      rw [hid2]
      refine ⟨rfl, ?_⟩
      intro _
      simp [AppleMusicMacController.countPlaylists, List.countP_append, List.countP_cons, h0]
  refine ⟨macPart.1, macPart.2, ?_, ?_⟩
  · cases hE : AppleMusicWindowsController.playlistExists ss name with
    | true =>
      have hid : AppleMusicWindowsController.create_playlist ss name = ss := by
        simp [AppleMusicWindowsController.create_playlist, hE]
      rw [hid, hid]
    | false =>
      have h1 : AppleMusicWindowsController.create_playlist ss name
          = AppleMusicWindowsController.addNewPlaylist ss name := by
        simp [AppleMusicWindowsController.create_playlist, hE]
      cases hL : AppleMusicWindowsController.hasLibrarySource ss with
      | false =>
        have hAdd := winAddNew_no_library ss name hL
        rw [h1, hAdd, h1, hAdd]
      | true =>
        have hE2 : AppleMusicWindowsController.playlistExists (AppleMusicWindowsController.addNewPlaylist ss name) name = true := by
          rw [winAddNew_exists, hL]
          rfl
        rw [h1]
        simp [AppleMusicWindowsController.create_playlist, hE2]
  · intro hL hle
    cases hE : AppleMusicWindowsController.playlistExists ss name with
    | true =>
      have hid : AppleMusicWindowsController.create_playlist ss name = ss := by
        simp [AppleMusicWindowsController.create_playlist, hE]
      rw [hid, hid]
      have hpos := (winExists_iff_count_pos ss name).mp hE
      omega
    | false =>
      have h0 : AppleMusicWindowsController.countPlaylist ss name = 0 := by
        by_contra hne
        have hpos := (winExists_iff_count_pos ss name).mpr (Nat.pos_of_ne_zero hne)
        rw [hE] at hpos
        exact absurd hpos (by decide)
      have h1 : AppleMusicWindowsController.create_playlist ss name
          = AppleMusicWindowsController.addNewPlaylist ss name := by
        simp [AppleMusicWindowsController.create_playlist, hE]
      have hE2 : AppleMusicWindowsController.playlistExists (AppleMusicWindowsController.addNewPlaylist ss name) name = true := by
        rw [winAddNew_exists, hL]
        rfl
      have h2 : AppleMusicWindowsController.create_playlist (AppleMusicWindowsController.addNewPlaylist ss name) name
          = AppleMusicWindowsController.addNewPlaylist ss name := by
        simp [AppleMusicWindowsController.create_playlist, hE2]
      rw [h1, h2, winAddNew_count, h0, hL]
      rfl

/-- C9 witness: two consecutive creations of playlist P, on a Mac host
already holding P and on a Windows library with one Kind-1 source
holding P, leave exactly one playlist named P in each. -/
theorem c9_ensure_playlist_idempotent_witness :
    AppleMusicMacController.countPlaylists
        (AppleMusicMacController.create_playlist
          (AppleMusicMacController.create_playlist ⟨fun _ => [], [("P", [])]⟩ "P") "P") "P" = 1
      ∧ AppleMusicWindowsController.countPlaylist
          (AppleMusicWindowsController.create_playlist
            (AppleMusicWindowsController.create_playlist [⟨1, [("P", [])]⟩] "P") "P") "P" = 1 := by
  have h := c9_ensure_playlist_idempotent ⟨fun _ => [], [("P", [])]⟩ "P" [⟨1, [("P", [])]⟩]
  exact ⟨h.2.1 (by decide), h.2.2.2 (by decide) (by decide)⟩

/-- C2: for every track, search_and_add_song queries the host search
with title, one space, artist, in that fixed order, and classifies:
zero results give NotFound (the Mac script answers "not found", both
methods return False, the host is unchanged); one or more results give
Added (return True) after adding exactly the first result to the
destination playlist, regardless of how many further results came back.
Stated for the macOS controller (first two conjuncts) and the Windows
controller (last two), assuming the destination playlist exists where
the addition needs it. -/
theorem c2_search_classification (m : AppleMusicMacController.MacMusic) (lib : WinLibrary) (pl t a : String) :
    (m.search (t ++ " " ++ a) = [] →
        AppleMusicMacController.run_search_script m pl t a = ("not found", m)
          ∧ AppleMusicMacController.search_and_add_song m pl t a = (false, m))
      ∧ (∀ (tr : Nat) (rest : List Nat), m.search (t ++ " " ++ a) = tr :: rest →
          pl ∈ m.playlists.map Prod.fst →
          AppleMusicMacController.run_search_script m pl t a
              = ("success", { m with playlists := addToFirstPlaylist m.playlists pl tr })
            ∧ AppleMusicMacController.search_and_add_song m pl t a
              = (true, { m with playlists := addToFirstPlaylist m.playlists pl tr }))
      ∧ (AppleMusicWindowsController.playlistExists lib.sources pl = true →
          lib.searchAll (t ++ " " ++ a) = [] →
          AppleMusicWindowsController.search_and_add_song lib pl t a = (false, lib))
      ∧ (∀ (tr : Nat) (rest : List Nat),
          AppleMusicWindowsController.playlistExists lib.sources pl = true →
          lib.searchAll (t ++ " " ++ a) = tr :: rest →
          AppleMusicWindowsController.search_and_add_song lib pl t a
            = (true, { lib with sources := AppleMusicWindowsController.addTrackToTarget lib.sources pl tr })) := by
  refine ⟨?_, ?_, ?_, ?_⟩
  · intro h
    constructor
    · simp [AppleMusicMacController.run_search_script, h]
    · simp [AppleMusicMacController.search_and_add_song, AppleMusicMacController.run_search_script, h]
  · intro tr rest h hpl
    have hrun : AppleMusicMacController.run_search_script m pl t a
        = ("success", { m with playlists := addToFirstPlaylist m.playlists pl tr }) := by
      simp [AppleMusicMacController.run_search_script, h, hpl]
    refine ⟨hrun, ?_⟩
    simp [AppleMusicMacController.search_and_add_song, hrun]
  · intro hpl h
    simp [AppleMusicWindowsController.search_and_add_song, hpl, h]
  · intro tr rest hpl h
    simp [AppleMusicWindowsController.search_and_add_song, hpl, h]

/-- C2 witness: on a concrete host whose search returns two results for
the query Song, space, Artist, the Mac controller reports success and
the first result, id 7, lands in playlist P; the Windows controller on
an empty search result reports False and leaves the library unchanged. -/
theorem c2_search_classification_witness :
    AppleMusicMacController.search_and_add_song
        ⟨fun q => if q = "Song Artist" then [7, 8] else [], [("P", [])]⟩ "P" "Song" "Artist"
      = (true, { (⟨fun q => if q = "Song Artist" then [7, 8] else [], [("P", [])]⟩ : AppleMusicMacController.MacMusic) with
          playlists := addToFirstPlaylist [("P", [])] "P" 7 })
      ∧ AppleMusicWindowsController.search_and_add_song
          ⟨[⟨1, [("P", [])]⟩], fun _ => []⟩ "P" "Song" "Artist"
        = (false, ⟨[⟨1, [("P", [])]⟩], fun _ => []⟩) := by
  have h := c2_search_classification
    ⟨fun q => if q = "Song Artist" then [7, 8] else [], [("P", [])]⟩
    ⟨[⟨1, [("P", [])]⟩], fun _ => []⟩ "P" "Song" "Artist"
  exact ⟨(h.2.1 7 [8] rfl (by decide)).2, h.2.2.1 (by decide) rfl⟩

/-! Helper lemmas about quote escaping. -/

theorem escapeChars_length_le (l : List Char) :
    l.length ≤ (AppleMusicMacController.escapeChars l).length := by
  induction l with
  | nil => exact Nat.le_refl 0
  | cons c rest ih =>
    by_cases hc : c = '\"' <;>
      simp [AppleMusicMacController.escapeChars, hc] <;> omega

theorem escapeChars_length_lt (l : List Char) (h : '\"' ∈ l) :
    l.length < (AppleMusicMacController.escapeChars l).length := by
  induction l with
  | nil => exact absurd h (List.not_mem_nil _)
  | cons c rest ih =>
    by_cases hc : c = '\"'
    · have := escapeChars_length_le rest
      simp [AppleMusicMacController.escapeChars, hc]
      omega
    · have hmem : '\"' ∈ rest := by
        rcases List.mem_cons.mp h with h1 | h1
        · exact absurd h1.symm hc
        · exact h1
      have := ih hmem
      simp [AppleMusicMacController.escapeChars, hc]
      omega

/-- C10: in the AppleScript backend the quote escaping is applied only
to the song title and artist: the create script is the fixed template
with the playlist name spliced in verbatim twice, and the search script
splices in escape_quotes of title and artist but the playlist name
verbatim; consequently a playlist name containing a double quote is
embedded unescaped, since escaping it would have changed it (third
conjunct). -/
theorem c10_playlist_name_interpolated_verbatim (name t a : String) :
    AppleMusicMacController.create_playlist_script name
        = "\n        tell application \"Music\"\n            if not (exists playlist \"" ++ name
            ++ "\") then\n                make new playlist with properties \x7bname:\"" ++ name
            ++ "\"\x7d\n            end if\n        end tell\n        "
      ∧ AppleMusicMacController.search_script name t a
        = "\n        tell application \"Music\"\n            try\n                set searchResults to search playlist \"Library\" for \""
            ++ AppleMusicMacController.escape_quotes t ++ " " ++ AppleMusicMacController.escape_quotes a
            ++ "\"\n                if (count of searchResults) > 0 then\n                    set theTrack to item 1 of searchResults\n                    duplicate theTrack to playlist \""
            ++ name
            ++ "\"\n                    return \"success\"\n                else\n                    return \"not found\"\n                end if\n            on error errMsg\n                return \"error: \" & errMsg\n            end try\n        end tell\n        "
      ∧ ('\"' ∈ name.data → AppleMusicMacController.escape_quotes name ≠ name) := by
  refine ⟨rfl, rfl, ?_⟩
  intro hq heq
  have hd : AppleMusicMacController.escapeChars name.data = name.data := congrArg String.data heq
  have hlt := escapeChars_length_lt name.data hq
  rw [hd] at hlt
  exact Nat.lt_irrefl _ hlt

/-- C10 witness: the name with an embedded quote would change under the
escaping that title and artist receive, so its verbatim splice is
unescaped. -/
theorem c10_playlist_name_interpolated_verbatim_witness :
    AppleMusicMacController.escape_quotes "a\"b" ≠ "a\"b" :=
  (c10_playlist_name_interpolated_verbatim "a\"b" "x" "y").2.2 (by decide)
